import Mathlib

/-!
Shallow embedding of src/src/framework/operations.hpp (qiskit-aer),
the JSON-to-operation dispatch and validation layer, together with
theorems checking the natural-language specification against it.

Conventions of the embedding:
  qubit indices (uint_t) are Nat; reg_t is List Nat;
  double is modelled as the rationals (values are only stored and
  length-compared, never computed with);
  complex_t is a pair of rationals; cvector_t and cmatrix_t are lists;
  std::string payloads are List Char;
  a function that can throw std::invalid_argument returns Except OpError;
  each distinct error message of the source is one OpError constructor,
  named as in the specification error taxonomy.
-/

namespace AerOps

abbrev complex_t := ℚ × ℚ

abbrev cvector_t := List complex_t

abbrev cmatrix_t := List (List complex_t)

abbrev reg_t := List Nat

/-- The `Op` struct of operations.hpp: one field per member, with the
member default values of the source. -/
structure Op where
  name : String := ""
  conditional : Bool := false
  qubits : reg_t := []
  memory : reg_t := []
  registers : reg_t := []
  conditional_reg : Nat := 0
  params_string : List (List Char) := []
  params_double : List ℚ := []
  params_complex : List complex_t := []
  params_cvector : List cvector_t := []
  params_cmatrix : List cmatrix_t := []
  params_reg : List reg_t := []
deriving DecidableEq, Repr

/-- The validation failures of the layer, one constructor per distinct
std::invalid_argument message of the source (names follow the
specification taxonomy), plus UndefinedBehavior for an out-of-range
std::string element access (undefined behavior in the source). -/
inductive OpError where
  | MissingName
  | EmptyQubits
  | DuplicateQubits
  | LengthMismatch
  | EmptyParams
  | LabelLengthMismatch
  | CoeffCountMismatch
  | BadPartition
  | PayloadCountMismatch
  | UnknownName
  | UndefinedBehavior
deriving DecidableEq, Repr

/-- One input record (json_t): each field the source ever reads, as the
typed view the reading constructor requests from the field extractor;
none when the key is absent. The keys params and sub_params are read at
different types by different constructors, hence several views. -/
structure JsRecord where
  name : Option String := none
  qubits : Option reg_t := none
  memory : Option reg_t := none
  registers : Option reg_t := none
  paramsDouble : Option (List ℚ) := none
  paramsString : Option (List (List Char)) := none
  paramsComplexList : Option (List complex_t) := none
  paramsMatrixOne : Option cmatrix_t := none
  paramsMatrixList : Option (List cmatrix_t) := none
  coeffs : Option (List complex_t) := none
  sub_qubits : Option (List reg_t) := none
  subParamsMat : Option (List cmatrix_t) := none
  subParamsVec : Option (List cvector_t) := none
deriving DecidableEq, Repr

instance {ε α : Type} [DecidableEq ε] [DecidableEq α] : DecidableEq (Except ε α) := fun a b =>
  match a, b with
  | .error e, .error e2 =>
      if h : e = e2 then isTrue (by rw [h])
      else isFalse (fun hc => h (by injection hc))
  | .error _, .ok _ => isFalse (fun hc => Except.noConfusion hc)
  | .ok _, .error _ => isFalse (fun hc => Except.noConfusion hc)
  | .ok x, .ok y =>
      if h : x = y then isTrue (by rw [h])
      else isFalse (fun hc => h (by injection hc))

/-- Modelled from the spec: the field extractor JSON::get_value
(framework/json.hpp, not under src/) overwrites the target with the
coerced value when the key is present and leaves the target at its
prior (default-constructed) value when the key is absent. -/
def get_value {α : Type} (dflt : α) (field : Option α) : α :=
  field.getD dflt

/-- Index of the first adjacent equal pair of the list, as
std::adjacent_find reports it; none when there is no such pair. -/
def adjFind : List Nat → Option Nat
  | [] => none
  | [_] => none
  | a :: b :: rest =>
      if a = b then some 0 else (adjFind (b :: rest)).map (· + 1)

/-- Adjacent deduplication keeping the first element of each run: the
values std::unique writes into the prefix it compacts. -/
def dedupAdj : List Nat → List Nat
  | [] => []
  | a :: rest => a :: dedupAdjFrom a rest
where
  dedupAdjFrom (last : Nat) : List Nat → List Nat
  | [] => []
  | b :: rest => if b = last then dedupAdjFrom last rest else b :: dedupAdjFrom b rest

/-- Content of a vector of scalars after std::unique runs on it (without
erase): untouched when there is no adjacent equal pair; otherwise the
prefix before the first pair is untouched, the compacted
adjacent-deduplicated values follow, and the positions past the returned
iterator keep their old values (scalar moves are copies, the shift-forward
behavior of the mainstream library implementations). -/
def stdUniqueContent (l : List Nat) : List Nat :=
  match adjFind l with
  | none => l
  | some k =>
      let ded := dedupAdj (l.drop k)
      l.take k ++ ded ++ l.drop (k + ded.length)

/-- check_qubits of operations.hpp: empty check, then comparison of the
vector with its own copy after std::unique. -/
def check_qubits (qubits : reg_t) : Except OpError Unit :=
  if qubits = [] then .error .EmptyQubits
  else if stdUniqueContent qubits ≠ qubits then .error .DuplicateQubits
  else .ok ()

/-- std::distance(begin, std::find(begin, end, q)): index of the first
occurrence of q, or the length of the list when q is absent. -/
def cppFind : List Nat → Nat → Nat
  | [], _ => 0
  | a :: rest, q => if a = q then 0 else cppFind rest q + 1

/-- Element access s[pos] on a std::string: the stored character when
pos is within the string, the null character when pos equals the size
(the stored terminator), undefined behavior past that. -/
def strIndexCpp (s : List Char) (pos : Nat) : Except OpError Char :=
  if pos < s.length then .ok (s.getD pos (Char.ofNat 0))
  else if pos = s.length then .ok (Char.ofNat 0)
  else .error .UndefinedBehavior

/-- Effectful map over a list, stopping at the first error (List.mapM
in the Except monad, written as a plain recursion). -/
def exceptMap {α β : Type} (f : α → Except OpError β) : List α → Except OpError (List β)
  | [] => .ok []
  | a :: rest =>
      match f a with
      | .error e => .error e
      | .ok b =>
          match exceptMap f rest with
          | .error e => .error e
          | .ok bs => .ok (b :: bs)

/-- std::sort on a vector of qubit indices: ascending order. -/
def sortAsc (l : List Nat) : List Nat :=
  l.insertionSort (· ≤ ·)

/-- The per-label rewrite of the canonicalization loop in
json_to_op_obs_pauli: for each q of the sorted qubit list, in order,
append s[std::distance(begin, find(unsorted, q))] to the new label. -/
def canonLabel (unsorted sorted : List Nat) (s : List Char) : Except OpError (List Char) :=
  exceptMap (fun q => strIndexCpp s (cppFind unsorted q)) sorted

/-- The sort-and-rewrite step of json_to_op_obs_pauli (lines 310 to 323
of operations.hpp): sort the qubits ascending and rewrite every label
through canonLabel. -/
def canonicalize (qubits : List Nat) (labels : List (List Char)) :
    Except OpError (List Nat × List (List Char)) :=
  let sorted := sortAsc qubits
  match exceptMap (fun s => canonLabel qubits sorted s) labels with
  | .error e => .error e
  | .ok labels2 => .ok (sorted, labels2)

/-- json_to_op_gate of operations.hpp. -/
def json_to_op_gate (js : JsRecord) : Except OpError Op :=
  let name := get_value "" js.name
  if name = "" then .error .MissingName
  else
    let qubits := get_value [] js.qubits
    if qubits = [] then .error .EmptyQubits
    else
      let params := get_value [] js.paramsDouble
      .ok { name := name, qubits := qubits, params_double := params }

/-- json_to_op_measure of operations.hpp. -/
def json_to_op_measure (js : JsRecord) : Except OpError Op :=
  let qubits := get_value [] js.qubits
  if qubits = [] then .error .EmptyQubits
  else
    let memory := get_value [] js.memory
    if memory ≠ [] ∧ memory.length ≠ qubits.length then .error .LengthMismatch
    else
      let registers := get_value [] js.registers
      if registers ≠ [] ∧ registers.length ≠ qubits.length then .error .LengthMismatch
      else .ok { name := "measure", qubits := qubits, memory := memory, registers := registers }

/-- json_to_op_reset of operations.hpp: absent or empty params default
to one zero per qubit, then the length comparison runs. -/
def json_to_op_reset (js : JsRecord) : Except OpError Op :=
  let qubits := get_value [] js.qubits
  if qubits = [] then .error .EmptyQubits
  else
    let p0 := get_value [] js.paramsDouble
    let params := if p0 = [] then List.replicate qubits.length (0 : ℚ) else p0
    if params.length ≠ qubits.length then .error .LengthMismatch
    else .ok { name := "reset", qubits := qubits, params_double := params }

/-- json_to_op_snapshot of operations.hpp: a single string label gets
the literal label default appended. -/
def json_to_op_snapshot (js : JsRecord) : Except OpError Op :=
  let ps := get_value [] js.paramsString
  let ps2 := if ps.length = 1 then ps ++ ["default".toList] else ps
  .ok { name := "snapshot", params_string := ps2 }

/-- json_to_op_mat of operations.hpp: one matrix read from params is
placed as the single element of params_cmatrix. -/
def json_to_op_mat (js : JsRecord) : Except OpError Op :=
  let qubits := get_value [] js.qubits
  if qubits = [] then .error .EmptyQubits
  else
    let tmp := get_value [] js.paramsMatrixOne
    .ok { name := "mat", qubits := qubits, params_cmatrix := [tmp] }

/-- json_to_op_dmat of operations.hpp. -/
def json_to_op_dmat (js : JsRecord) : Except OpError Op :=
  let qubits := get_value [] js.qubits
  if qubits = [] then .error .EmptyQubits
  else
    let params := get_value [] js.paramsComplexList
    .ok { name := "dmat", qubits := qubits, params_complex := params }

/-- json_to_op_kraus of operations.hpp. -/
def json_to_op_kraus (js : JsRecord) : Except OpError Op :=
  let qubits := get_value [] js.qubits
  if qubits = [] then .error .EmptyQubits
  else
    let params := get_value [] js.paramsMatrixList
    .ok { name := "kraus", qubits := qubits, params_cmatrix := params }

/-- json_to_op_probs of operations.hpp. -/
def json_to_op_probs (js : JsRecord) : Except OpError Op :=
  let qubits := get_value [] js.qubits
  if qubits = [] then .error .EmptyQubits
  else .ok { name := "probs", qubits := qubits }

/-- json_to_op_obs_pauli of operations.hpp: the canonicalization loop
runs first, then the four validation checks in source order, on the
already sorted qubits and the already rewritten labels. -/
def json_to_op_obs_pauli (js : JsRecord) : Except OpError Op :=
  let qubits := get_value [] js.qubits
  let labels := get_value [] js.paramsString
  let coeffs := get_value [] js.coeffs
  match canonicalize qubits labels with
  | .error e => .error e
  | .ok (sorted, labels2) =>
      if sorted = [] then .error .EmptyQubits
      else if labels2 = [] then .error .EmptyParams
      else if ¬ (∀ s ∈ labels2, s.length = sorted.length) then .error .LabelLengthMismatch
      else if coeffs.length ≠ labels2.length then .error .CoeffCountMismatch
      else .ok { name := "obs_pauli", qubits := sorted,
                 params_string := labels2, params_complex := coeffs }

/-- The sub_qubits compatibility test shared by the three sub-register
observable constructors: the number of distinct inserted indices
(std::set size) and the total element count across the subsets are both
compared with the parent list length; nothing else is compared. -/
def subQubitsCompatible (qubits : reg_t) (subQ : List reg_t) : Prop :=
  (subQ.flatten).dedup.length = qubits.length ∧ (subQ.map List.length).sum = qubits.length

instance (qubits : reg_t) (subQ : List reg_t) : Decidable (subQubitsCompatible qubits subQ) := by
  unfold subQubitsCompatible; infer_instance

/-- json_to_op_obs_mat of operations.hpp. -/
def json_to_op_obs_mat (js : JsRecord) : Except OpError Op :=
  let qubits := get_value [] js.qubits
  let subQ := get_value [] js.sub_qubits
  let subP := get_value [] js.subParamsMat
  match check_qubits qubits with
  | .error e => .error e
  | .ok _ =>
      if ¬ subQubitsCompatible qubits subQ then .error .BadPartition
      else if subQ.length ≠ subP.length then .error .PayloadCountMismatch
      else .ok { name := "obs_mat", qubits := qubits,
                 params_reg := subQ, params_cmatrix := subP }

/-- json_to_op_obs_dmat of operations.hpp. -/
def json_to_op_obs_dmat (js : JsRecord) : Except OpError Op :=
  let qubits := get_value [] js.qubits
  let subQ := get_value [] js.sub_qubits
  let subP := get_value [] js.subParamsVec
  match check_qubits qubits with
  | .error e => .error e
  | .ok _ =>
      if ¬ subQubitsCompatible qubits subQ then .error .BadPartition
      else if subQ.length ≠ subP.length then .error .PayloadCountMismatch
      else .ok { name := "obs_dmat", qubits := qubits,
                 params_reg := subQ, params_cvector := subP }

/-- json_to_op_obs_vec of operations.hpp. -/
def json_to_op_obs_vec (js : JsRecord) : Except OpError Op :=
  let qubits := get_value [] js.qubits
  let subQ := get_value [] js.sub_qubits
  let subP := get_value [] js.subParamsVec
  match check_qubits qubits with
  | .error e => .error e
  | .ok _ =>
      if ¬ subQubitsCompatible qubits subQ then .error .BadPartition
      else if subQ.length ≠ subP.length then .error .PayloadCountMismatch
      else .ok { name := "obs_vec", qubits := qubits,
                 params_reg := subQ, params_cvector := subP }

/-- json_to_op_obs of operations.hpp: the observable sub-dispatcher;
any other name throws (UnknownName in the specification taxonomy). -/
def json_to_op_obs (js : JsRecord) : Except OpError Op :=
  let name := get_value "" js.name
  if name = "obs_pauli" then json_to_op_obs_pauli js
  else if name = "obs_mat" then json_to_op_obs_mat js
  else if name = "obs_dmat" then json_to_op_obs_dmat js
  else if name = "obs_vec" then json_to_op_obs_vec js
  else .error .UnknownName

/-- json_to_op of operations.hpp, the top-level dispatcher. The
branches for obs_mat, obs_dmat, obs_vec, bfunc and roerror are commented
out in the source, so those names fall through to json_to_op_gate. -/
def json_to_op (js : JsRecord) : Except OpError Op :=
  let name := get_value "" js.name
  if name = "" then .error .MissingName
  else if name = "measure" then json_to_op_measure js
  else if name = "reset" then json_to_op_reset js
  else if name = "mat" then json_to_op_mat js
  else if name = "dmat" then json_to_op_dmat js
  else if name = "probs" then json_to_op_probs js
  else if name = "obs_pauli" then json_to_op_obs_pauli js
  else if name = "snapshot" then json_to_op_snapshot js
  else if name = "kraus" then json_to_op_kraus js
  else json_to_op_gate js

/-- The exact-partition property as the specification states it: the
subsets are pairwise disjoint and their union, as a set of indices,
equals the parent qubit set. Stated from the spec, for comparison with
the subQubitsCompatible test the source performs. -/
def specExactPartition (parent : reg_t) (subs : List reg_t) : Prop :=
  subs.Pairwise (fun a b => ∀ x, x ∈ a → x ∉ b) ∧
  (subs.flatten).toFinset = parent.toFinset

instance (parent : reg_t) (subs : List reg_t) : Decidable (specExactPartition parent subs) := by
  unfold specExactPartition
  have : DecidablePred fun p : reg_t × reg_t => ∀ x, x ∈ p.1 → x ∉ p.2 := by
    intro p; infer_instance
  infer_instance

theorem exceptMap_ok {α β : Type} (f : α → Except OpError β) (g : α → β) :
    ∀ (l : List α), (∀ a ∈ l, f a = .ok (g a)) → exceptMap f l = .ok (l.map g)
  | [], _ => rfl
  | a :: rest, h => by
      have ha : f a = .ok (g a) := h a (List.mem_cons_self a rest)
      have hrest : exceptMap f rest = .ok (rest.map g) :=
        exceptMap_ok f g rest (fun x hx => h x (List.mem_cons_of_mem a hx))
      simp [exceptMap, ha, hrest]

theorem exceptMap_length {α β : Type} (f : α → Except OpError β) :
    ∀ (l : List α) (l2 : List β), exceptMap f l = .ok l2 → l2.length = l.length
  | [], l2, h => by simp [exceptMap] at h; simp [← h]
  | a :: rest, l2, h => by
      unfold exceptMap at h
      cases hfa : f a with
      | error e => rw [hfa] at h; exact absurd h (by simp)
      | ok b =>
          rw [hfa] at h
          cases hrest : exceptMap f rest with
          | error e => rw [hrest] at h; exact absurd h (by simp)
          | ok bs =>
              rw [hrest] at h
              have := exceptMap_length f rest bs hrest
              simp at h
              simp [← h, this]

theorem exceptMap_mem {α β : Type} (f : α → Except OpError β) :
    ∀ (l : List α) (l2 : List β), exceptMap f l = .ok l2 →
      ∀ b ∈ l2, ∃ a ∈ l, f a = .ok b
  | [], l2, h => by
      simp [exceptMap] at h
      subst h
      intro b hb; exact absurd hb (by simp)
  | a :: rest, l2, h => by
      unfold exceptMap at h
      cases hfa : f a with
      | error e => rw [hfa] at h; exact absurd h (by simp)
      | ok b0 =>
          rw [hfa] at h
          cases hrest : exceptMap f rest with
          | error e => rw [hrest] at h; exact absurd h (by simp)
          | ok bs =>
              rw [hrest] at h
              simp at h
              intro b hb
              rw [← h] at hb
              rcases List.mem_cons.mp hb with hb0 | hbs
              · exact ⟨a, List.mem_cons_self a rest, by rw [hfa, hb0]⟩
              · rcases exceptMap_mem f rest bs hrest b hbs with ⟨x, hx, hfx⟩
                exact ⟨x, List.mem_cons_of_mem a hx, hfx⟩

theorem exceptMap_error {α β : Type} (f : α → Except OpError β) :
    ∀ (l : List α) (e : OpError), exceptMap f l = .error e → ∃ a ∈ l, f a = .error e
  | [], e, h => by exact absurd h (by simp [exceptMap])
  | a :: rest, e, h => by
      unfold exceptMap at h
      cases hfa : f a with
      | error e0 =>
          rw [hfa] at h
          simp at h
          exact ⟨a, List.mem_cons_self a rest, by rw [hfa, h]⟩
      | ok b =>
          rw [hfa] at h
          cases hrest : exceptMap f rest with
          | error e0 =>
              rw [hrest] at h
              simp at h
              rcases exceptMap_error f rest e0 hrest with ⟨x, hx, hfx⟩
              exact ⟨x, List.mem_cons_of_mem a hx, by rw [hfx, h]⟩
          | ok bs => rw [hrest] at h; exact absurd h (by simp)

theorem cppFind_lt_of_mem {q : Nat} : ∀ {l : List Nat}, q ∈ l → cppFind l q < l.length
  | [], h => absurd h (by simp)
  | a :: rest, h => by
      by_cases ha : a = q
      · simp [cppFind, ha]
      · have hq : q ∈ rest := by
          rcases List.mem_cons.mp h with h0 | h0
          · exact absurd h0.symm ha
          · exact h0
        have := cppFind_lt_of_mem hq
        simp [cppFind, ha]
        omega

theorem cppFind_cons_ne {a q : Nat} (l : List Nat) (h : a ≠ q) :
    cppFind (a :: l) q = cppFind l q + 1 := by
  simp [cppFind, h]

theorem map_getD_cppFind_self (c : Char) :
    ∀ (l : List Nat) (s : List Char), l.Nodup → s.length = l.length →
      l.map (fun q => s.getD (cppFind l q) c) = s
  | [], s, _, hlen => by
      have : s = [] := List.eq_nil_of_length_eq_zero (by simpa using hlen)
      simp [this]
  | a :: rest, s, hnd, hlen => by
      cases s with
      | nil => exact absurd hlen (by simp)
      | cons ch s2 =>
          have hna : a ∉ rest := (List.nodup_cons.mp hnd).1
          have hnd2 : rest.Nodup := (List.nodup_cons.mp hnd).2
          have hlen2 : s2.length = rest.length := by simpa using hlen
          simp only [List.map_cons]
          have hhead : (ch :: s2).getD (cppFind (a :: rest) a) c = ch := by
            simp [cppFind]
          have hcong :
              rest.map (fun q => (ch :: s2).getD (cppFind (a :: rest) q) c) =
              rest.map (fun q => s2.getD (cppFind rest q) c) := by
            apply List.map_congr_left
            intro x hx
            have hax : a ≠ x := fun he => hna (he ▸ hx)
            rw [cppFind_cons_ne rest hax, List.getD_cons_succ]
          rw [hhead, hcong, map_getD_cppFind_self c rest s2 hnd2 hlen2]

theorem strIndexCpp_ok_of_lt {s : List Char} {pos : Nat} (h : pos < s.length) :
    strIndexCpp s pos = .ok (s.getD pos (Char.ofNat 0)) := by
  simp [strIndexCpp, h]

theorem canonLabel_ok {unsorted : List Nat} {s : List Char} (sorted : List Nat)
    (h : ∀ q ∈ sorted, cppFind unsorted q < s.length) :
    canonLabel unsorted sorted s =
      .ok (sorted.map (fun q => s.getD (cppFind unsorted q) (Char.ofNat 0))) := by
  unfold canonLabel
  exact exceptMap_ok _ _ sorted (fun q hq => strIndexCpp_ok_of_lt (h q hq))

theorem canonLabel_length {unsorted sorted : List Nat} {s t : List Char}
    (h : canonLabel unsorted sorted s = .ok t) : t.length = sorted.length := by
  unfold canonLabel at h
  exact exceptMap_length _ sorted t h

theorem canonLabel_id {l : List Nat} {s : List Char} (hnd : l.Nodup)
    (hlen : s.length = l.length) : canonLabel l l s = .ok s := by
  have hb : ∀ q ∈ l, cppFind l q < s.length := by
    intro q hq; rw [hlen]; exact cppFind_lt_of_mem hq
  rw [canonLabel_ok l hb, map_getD_cppFind_self (Char.ofNat 0) l s hnd hlen]

theorem strIndexCpp_error {s : List Char} {pos : Nat} {e : OpError}
    (h : strIndexCpp s pos = .error e) : e = .UndefinedBehavior := by
  unfold strIndexCpp at h
  split_ifs at h
  simp_all

theorem canonicalize_error {q : List Nat} {ls : List (List Char)} {e : OpError}
    (h : canonicalize q ls = .error e) : e = .UndefinedBehavior := by
  simp only [canonicalize] at h
  cases hm : exceptMap (fun s => canonLabel q (sortAsc q) s) ls with
  | error e0 =>
      rw [hm] at h
      simp at h
      rcases exceptMap_error _ ls e0 hm with ⟨s, _, hs⟩
      unfold canonLabel at hs
      rcases exceptMap_error _ (sortAsc q) e0 hs with ⟨p, _, hp⟩
      rw [h] at hp
      exact strIndexCpp_error hp
  | ok l2 => rw [hm] at h; exact absurd h (by simp)

theorem sortAsc_perm (l : List Nat) : List.Perm (sortAsc l) l :=
  List.perm_insertionSort _ l

theorem sortAsc_sorted (l : List Nat) : List.Sorted (· ≤ ·) (sortAsc l) :=
  List.sorted_insertionSort _ l

theorem sortAsc_nodup {l : List Nat} (h : l.Nodup) : (sortAsc l).Nodup :=
  (sortAsc_perm l).nodup_iff.mpr h

theorem sortAsc_eq_self {l : List Nat} (h : List.Sorted (· ≤ ·) l) : sortAsc l = l :=
  h.insertionSort_eq

theorem sortAsc_length (l : List Nat) : (sortAsc l).length = l.length :=
  (sortAsc_perm l).length_eq

theorem sortAsc_mem {l : List Nat} {x : Nat} (h : x ∈ sortAsc l) : x ∈ l :=
  (sortAsc_perm l).mem_iff.mp h

theorem sortAsc_ne_nil {l : List Nat} (h : l ≠ []) : sortAsc l ≠ [] := by
  intro he
  have := sortAsc_length l
  rw [he] at this
  exact h (List.eq_nil_of_length_eq_zero this.symm)

theorem check_qubits_ok_ne_nil {q : reg_t} {u : Unit} (h : check_qubits q = .ok u) :
    q ≠ [] := by
  unfold check_qubits at h
  split_ifs at h with h1 h2
  exact h1

theorem get_value_some {α : Type} (d x : α) : get_value d (some x) = x := rfl

theorem get_value_none {α : Type} (d : α) : get_value d (none : Option α) = d := rfl

theorem gate_ok_qubits {js : JsRecord} {op : Op} (h : json_to_op_gate js = .ok op) :
    op.qubits ≠ [] := by
  simp only [json_to_op_gate] at h
  split_ifs at h
  all_goals simp only [Except.ok.injEq] at h
  all_goals subst h
  all_goals simp_all

theorem measure_ok_qubits {js : JsRecord} {op : Op} (h : json_to_op_measure js = .ok op) :
    op.qubits ≠ [] := by
  simp only [json_to_op_measure] at h
  split_ifs at h
  all_goals simp only [Except.ok.injEq] at h
  all_goals subst h
  all_goals simp_all

theorem reset_ok_qubits {js : JsRecord} {op : Op} (h : json_to_op_reset js = .ok op) :
    op.qubits ≠ [] := by
  simp only [json_to_op_reset] at h
  split_ifs at h
  all_goals simp only [Except.ok.injEq] at h
  all_goals subst h
  all_goals simp_all

theorem mat_ok_qubits {js : JsRecord} {op : Op} (h : json_to_op_mat js = .ok op) :
    op.qubits ≠ [] := by
  simp only [json_to_op_mat] at h
  split_ifs at h
  all_goals simp only [Except.ok.injEq] at h
  all_goals subst h
  all_goals simp_all

theorem dmat_ok_qubits {js : JsRecord} {op : Op} (h : json_to_op_dmat js = .ok op) :
    op.qubits ≠ [] := by
  simp only [json_to_op_dmat] at h
  split_ifs at h
  all_goals simp only [Except.ok.injEq] at h
  all_goals subst h
  all_goals simp_all

theorem kraus_ok_qubits {js : JsRecord} {op : Op} (h : json_to_op_kraus js = .ok op) :
    op.qubits ≠ [] := by
  simp only [json_to_op_kraus] at h
  split_ifs at h
  all_goals simp only [Except.ok.injEq] at h
  all_goals subst h
  all_goals simp_all

theorem probs_ok_qubits {js : JsRecord} {op : Op} (h : json_to_op_probs js = .ok op) :
    op.qubits ≠ [] := by
  simp only [json_to_op_probs] at h
  split_ifs at h
  all_goals simp only [Except.ok.injEq] at h
  all_goals subst h
  all_goals simp_all

theorem obs_pauli_ok_qubits {js : JsRecord} {op : Op} (h : json_to_op_obs_pauli js = .ok op) :
    op.qubits ≠ [] := by
  simp only [json_to_op_obs_pauli] at h
  split at h
  · simp at h
  · rename_i sorted labels2
    split_ifs at h
    all_goals simp only [Except.ok.injEq] at h
    all_goals subst h
    all_goals simp_all

theorem obs_mat_ok_qubits {js : JsRecord} {op : Op} (h : json_to_op_obs_mat js = .ok op) :
    op.qubits ≠ [] := by
  simp only [json_to_op_obs_mat] at h
  split at h
  · simp at h
  · rename_i u heq
    split_ifs at h
    all_goals simp only [Except.ok.injEq] at h
    all_goals subst h
    all_goals simpa using check_qubits_ok_ne_nil heq

theorem obs_dmat_ok_qubits {js : JsRecord} {op : Op} (h : json_to_op_obs_dmat js = .ok op) :
    op.qubits ≠ [] := by
  simp only [json_to_op_obs_dmat] at h
  split at h
  · simp at h
  · rename_i u heq
    split_ifs at h
    all_goals simp only [Except.ok.injEq] at h
    all_goals subst h
    all_goals simpa using check_qubits_ok_ne_nil heq

theorem obs_vec_ok_qubits {js : JsRecord} {op : Op} (h : json_to_op_obs_vec js = .ok op) :
    op.qubits ≠ [] := by
  simp only [json_to_op_obs_vec] at h
  split at h
  · simp at h
  · rename_i u heq
    split_ifs at h
    all_goals simp only [Except.ok.injEq] at h
    all_goals subst h
    all_goals simpa using check_qubits_ok_ne_nil heq

theorem measure_ne_missing (js : JsRecord) : json_to_op_measure js ≠ .error .MissingName := by
  simp only [json_to_op_measure]
  split_ifs <;> simp

theorem reset_ne_missing (js : JsRecord) : json_to_op_reset js ≠ .error .MissingName := by
  simp only [json_to_op_reset]
  split_ifs <;> simp

theorem mat_ne_missing (js : JsRecord) : json_to_op_mat js ≠ .error .MissingName := by
  simp only [json_to_op_mat]
  split_ifs <;> simp

theorem dmat_ne_missing (js : JsRecord) : json_to_op_dmat js ≠ .error .MissingName := by
  simp only [json_to_op_dmat]
  split_ifs <;> simp

theorem probs_ne_missing (js : JsRecord) : json_to_op_probs js ≠ .error .MissingName := by
  simp only [json_to_op_probs]
  split_ifs <;> simp

theorem kraus_ne_missing (js : JsRecord) : json_to_op_kraus js ≠ .error .MissingName := by
  simp only [json_to_op_kraus]
  split_ifs <;> simp

theorem snapshot_ne_missing (js : JsRecord) : json_to_op_snapshot js ≠ .error .MissingName := by
  simp [json_to_op_snapshot]

theorem obs_pauli_ne_missing (js : JsRecord) : json_to_op_obs_pauli js ≠ .error .MissingName := by
  simp only [json_to_op_obs_pauli]
  split
  · rename_i e heq
    have he := canonicalize_error heq
    subst he
    simp
  · split_ifs <;> simp

theorem gate_missing_iff (js : JsRecord) :
    json_to_op_gate js = .error .MissingName ↔ get_value "" js.name = "" := by
  simp only [json_to_op_gate]
  split_ifs with h1 h2 <;> simp [h1]

/-- C1: the claim says the matrix-observable constructor fails with
BadPartition unless the sub_qubits exactly partition the parent qubit
set, and in particular must fail when the union has the right
cardinality but contains an index outside the parent set. The code only
compares cardinalities: with parent qubits [0, 1] (which passes
check_qubits) and sub_qubits [[5, 6]], whose union has cardinality 2 but
is disjoint from the parent set, construction succeeds. -/
theorem obs_mat_accepts_non_partition :
    json_to_op_obs_mat { qubits := some [0, 1], sub_qubits := some [[5, 6]],
                         subParamsMat := some [[[((1 : ℚ), (0 : ℚ))]]] } =
      .ok { name := "obs_mat", qubits := [0, 1], params_reg := [[5, 6]],
            params_cmatrix := [[[((1 : ℚ), (0 : ℚ))]]] } ∧
    ¬ specExactPartition [0, 1] [[5, 6]] ∧
    check_qubits [0, 1] = .ok () := by
  refine ⟨by decide, by decide, by decide⟩

/-- C2: the claim says check_qubits fails with DuplicateQubits whenever
the list repeats an index, including non-adjacent repeats such as
[0, 1, 0], and with EmptyQubits on the empty list. The empty case holds,
but std::unique only touches adjacent equal pairs, so [0, 1, 0], which
is not duplicate-free, is accepted. -/
theorem check_qubits_misses_nonadjacent_duplicate :
    check_qubits [0, 1, 0] = .ok () ∧
    ¬ ([0, 1, 0] : reg_t).Nodup ∧
    check_qubits [] = .error .EmptyQubits := by
  refine ⟨by decide, by decide, by decide⟩

/-- C3 counterexample: the generic gate constructor succeeds on a
qubits list with a repeated index, so not every successfully
constructed instruction has a duplicate-free qubits list. -/
theorem gate_accepts_duplicate_qubits :
    json_to_op_gate { name := some "u1", qubits := some [0, 0] } =
      .ok { name := "u1", qubits := [0, 0] } ∧
    ¬ ([0, 0] : reg_t).Nodup := by
  refine ⟨by decide, by decide⟩

/-- C3 amended: every instruction successfully returned by one of the
qubit-carrying constructors (gate, measure, reset, mat, dmat, kraus,
probs, obs_pauli, obs_mat, obs_dmat, obs_vec) has a non-empty qubits
list; duplicate-freedom is not guaranteed. -/
theorem constructors_qubits_nonempty (js : JsRecord) (op : Op)
    (h : json_to_op_gate js = .ok op ∨ json_to_op_measure js = .ok op ∨
         json_to_op_reset js = .ok op ∨ json_to_op_mat js = .ok op ∨
         json_to_op_dmat js = .ok op ∨ json_to_op_kraus js = .ok op ∨
         json_to_op_probs js = .ok op ∨ json_to_op_obs_pauli js = .ok op ∨
         json_to_op_obs_mat js = .ok op ∨ json_to_op_obs_dmat js = .ok op ∨
         json_to_op_obs_vec js = .ok op) :
    op.qubits ≠ [] := by
  rcases h with h | h | h | h | h | h | h | h | h | h | h
  · exact gate_ok_qubits h
  · exact measure_ok_qubits h
  · exact reset_ok_qubits h
  · exact mat_ok_qubits h
  · exact dmat_ok_qubits h
  · exact kraus_ok_qubits h
  · exact probs_ok_qubits h
  · exact obs_pauli_ok_qubits h
  · exact obs_mat_ok_qubits h
  · exact obs_dmat_ok_qubits h
  · exact obs_vec_ok_qubits h

/-- Witness for C3 amended, at the probs constructor on qubits [0]. -/
theorem constructors_qubits_nonempty_w :
    ({ name := "probs", qubits := [0] } : Op).qubits ≠ [] :=
  constructors_qubits_nonempty { qubits := some [0] } { name := "probs", qubits := [0] }
    (Or.inr (Or.inr (Or.inr (Or.inr (Or.inr (Or.inr (Or.inl (by decide))))))))

/-- C4: the claim says a Pauli-observable record with non-empty qubits
and a label shorter than the qubit count fails with LabelLengthMismatch
without any out-of-range access during canonicalization. In the code the
canonicalization loop runs before any validation: with qubits [0, 1] and
label X the loop reads the stored null terminator, the rewritten label
has length 2, and construction succeeds with a corrupted label; with
qubits [0, 1, 2] and label X the loop indexes past the terminator,
which is undefined behavior, before any check runs. -/
theorem obs_pauli_short_label_not_rejected :
    json_to_op_obs_pauli { qubits := some [0, 1], paramsString := some [['X']],
                           coeffs := some [((1 : ℚ), (0 : ℚ))] } =
      .ok { name := "obs_pauli", qubits := [0, 1],
            params_string := [['X', Char.ofNat 0]],
            params_complex := [((1 : ℚ), (0 : ℚ))] } ∧
    json_to_op_obs_pauli { qubits := some [0, 1, 2], paramsString := some [['X']],
                           coeffs := some [((1 : ℚ), (0 : ℚ))] } =
      .error .UndefinedBehavior := by
  refine ⟨by decide, by decide⟩

/-- C5 counterexample: a record whose discriminator is the
reserved-but-unimplemented kind obs_mat is not propagated as an
UnknownName failure by the top-level dispatcher; it falls through to the
generic gate constructor and succeeds. -/
theorem dispatch_reserved_name_not_unknown :
    json_to_op { name := some "obs_mat", qubits := some [0] } =
      .ok { name := "obs_mat", qubits := [0] } := by
  decide

/-- C5 amended: the top-level dispatcher sends every
reserved-but-unimplemented kind (obs_mat, obs_dmat, obs_vec, bfunc,
roerror) to the generic gate constructor; an UnknownName failure arises
only inside the observable sub-dispatcher json_to_op_obs, for any name
other than the four observable kinds. -/
theorem reserved_names_fall_through :
    (∀ (js : JsRecord) (n : String), js.name = some n →
        n ∈ (["obs_mat", "obs_dmat", "obs_vec", "bfunc", "roerror"] : List String) →
        json_to_op js = json_to_op_gate js) ∧
    (∀ (js : JsRecord) (n : String), js.name = some n →
        n ∉ (["obs_pauli", "obs_mat", "obs_dmat", "obs_vec"] : List String) →
        json_to_op_obs js = .error .UnknownName) := by
  constructor
  · intro js n hn hmem
    have hgv : get_value "" js.name = n := by rw [hn]; rfl
    fin_cases hmem <;> simp [json_to_op, hgv]
  · intro js n hn hmem
    have hgv : get_value "" js.name = n := by rw [hn]; rfl
    simp at hmem
    obtain ⟨h1, h2, h3, h4⟩ := hmem
    simp only [json_to_op_obs, hgv]
    rw [if_neg h1, if_neg h2, if_neg h3, if_neg h4]

/-- Witness for C5 amended: the name bfunc dispatches to the generic
gate constructor. -/
theorem reserved_names_fall_through_w :
    json_to_op { name := some "bfunc", qubits := some [1] } =
      json_to_op_gate { name := some "bfunc", qubits := some [1] } :=
  reserved_names_fall_through.1 { name := some "bfunc", qubits := some [1] } "bfunc"
    rfl (by decide)

/-- C6: for a duplicate-free qubits list and labels each of length equal
to the qubit count, the Pauli-observable constructor returns the
ascending sort of the qubits and, for each label, the label whose
character at position j is the original character at the position of
sortedQubits[j] within the original unsorted qubits; every such access
is within the original label. -/
theorem obs_pauli_canonicalization (q : List Nat) (ls : List (List Char))
    (cs : List complex_t) (hq : q ≠ []) (_hnd : q.Nodup) (hls : ls ≠ [])
    (hlen : ∀ s ∈ ls, s.length = q.length) (hc : cs.length = ls.length) :
    json_to_op_obs_pauli { qubits := some q, paramsString := some ls, coeffs := some cs } =
      .ok { name := "obs_pauli", qubits := sortAsc q,
            params_string := ls.map (fun s => (sortAsc q).map
              (fun qq => s.getD (cppFind q qq) (Char.ofNat 0))),
            params_complex := cs } ∧
    ∀ s ∈ ls, ∀ qq ∈ sortAsc q, cppFind q qq < s.length := by
  have hbound : ∀ s ∈ ls, ∀ qq ∈ sortAsc q, cppFind q qq < s.length := by
    intro s hs qq hqq
    rw [hlen s hs]
    exact cppFind_lt_of_mem (sortAsc_mem hqq)
  have hall : ∀ s ∈ ls, canonLabel q (sortAsc q) s =
      .ok ((sortAsc q).map (fun qq => s.getD (cppFind q qq) (Char.ofNat 0))) :=
    fun s hs => canonLabel_ok (sortAsc q) (hbound s hs)
  have hcanon : canonicalize q ls =
      .ok (sortAsc q, ls.map (fun s => (sortAsc q).map
        (fun qq => s.getD (cppFind q qq) (Char.ofNat 0)))) := by
    simp only [canonicalize]
    rw [exceptMap_ok _ _ ls hall]
  refine ⟨?_, hbound⟩
  have hmapne : ls.map (fun s => (sortAsc q).map
      (fun qq => s.getD (cppFind q qq) (Char.ofNat 0))) ≠ [] := by
    simpa using hls
  have hlens : ∀ t ∈ ls.map (fun s => (sortAsc q).map
      (fun qq => s.getD (cppFind q qq) (Char.ofNat 0))), t.length = (sortAsc q).length := by
    intro t ht
    rcases List.mem_map.mp ht with ⟨s, _, rfl⟩
    simp
  have hcs : cs.length = (ls.map (fun s => (sortAsc q).map
      (fun qq => s.getD (cppFind q qq) (Char.ofNat 0)))).length := by
    simpa using hc
  simp only [json_to_op_obs_pauli, get_value_some, hcanon]
  rw [if_neg (sortAsc_ne_nil hq), if_neg hmapne, if_neg (not_not_intro hlens),
      if_neg (not_not_intro hcs)]

/-- Witness for C6: qubits [2, 0, 1] with label XYZ canonicalize to
qubits [0, 1, 2] with label YZX. -/
theorem obs_pauli_canonicalization_w :
    json_to_op_obs_pauli { qubits := some [2, 0, 1], paramsString := some [['X', 'Y', 'Z']],
                           coeffs := some [((1 : ℚ), (0 : ℚ))] } =
      .ok { name := "obs_pauli", qubits := [0, 1, 2],
            params_string := [['Y', 'Z', 'X']],
            params_complex := [((1 : ℚ), (0 : ℚ))] } := by
  have h := (obs_pauli_canonicalization [2, 0, 1] [['X', 'Y', 'Z']] [((1 : ℚ), (0 : ℚ))]
    (by decide) (by decide) (by decide) (by decide) (by decide)).1
  exact h.trans (by decide)

/-- C7: canonicalizing is idempotent: for a duplicate-free qubits list,
if the sort-and-rewrite step succeeds, running it again on its own
output changes nothing. -/
theorem canonicalize_idempotent (q : List Nat) (ls : List (List Char))
    (hnd : q.Nodup) (q2 : List Nat) (ls2 : List (List Char))
    (h : canonicalize q ls = .ok (q2, ls2)) :
    canonicalize q2 ls2 = .ok (q2, ls2) := by
  simp only [canonicalize] at h
  cases hm : exceptMap (fun s => canonLabel q (sortAsc q) s) ls with
  | error e => rw [hm] at h; exact absurd h (by simp)
  | ok lmap =>
      rw [hm] at h
      simp only [Except.ok.injEq, Prod.mk.injEq] at h
      obtain ⟨hq2, hls2⟩ := h
      subst hq2
      subst hls2
      have hnd2 : (sortAsc q).Nodup := sortAsc_nodup hnd
      have hsorted : sortAsc (sortAsc q) = sortAsc q := sortAsc_eq_self (sortAsc_sorted q)
      have hlen : ∀ t ∈ lmap, t.length = (sortAsc q).length := by
        intro t ht
        rcases exceptMap_mem _ ls lmap hm t ht with ⟨s, _, hs⟩
        exact canonLabel_length hs
      have hall : ∀ t ∈ lmap, canonLabel (sortAsc q) (sortAsc (sortAsc q)) t = .ok (id t) := by
        intro t ht
        rw [hsorted]
        exact canonLabel_id hnd2 (hlen t ht)
      simp only [canonicalize]
      rw [exceptMap_ok _ id lmap hall]
      simp [hsorted]

/-- Witness for C7: the canonical form of qubits [2, 0, 1] with label
XYZ is fixed by a second canonicalization. -/
theorem canonicalize_idempotent_w :
    canonicalize [0, 1, 2] [['Y', 'Z', 'X']] = .ok ([0, 1, 2], [['Y', 'Z', 'X']]) :=
  canonicalize_idempotent [2, 0, 1] [['X', 'Y', 'Z']] (by decide) [0, 1, 2] [['Y', 'Z', 'X']]
    (by decide)

/-- C8: a record whose non-empty discriminator matches no recognized
kind, with non-empty qubits and a params list, is constructed as a
generic gate carrying the discriminator as name, the given qubits and
the given real parameters; and the dispatcher yields MissingName exactly
when the discriminator is absent or empty. -/
theorem unrecognized_name_generic_gate (js : JsRecord) (n : String) (q : reg_t)
    (p : List ℚ) (hn : js.name = some n) (hne : n ≠ "")
    (hnr : n ∉ (["measure", "reset", "mat", "dmat", "probs", "obs_pauli",
                 "snapshot", "kraus"] : List String))
    (hq : js.qubits = some q) (hqne : q ≠ []) (hp : js.paramsDouble = some p) :
    json_to_op js = .ok { name := n, qubits := q, params_double := p } ∧
    ∀ js2 : JsRecord, (json_to_op js2 = .error .MissingName ↔ get_value "" js2.name = "") := by
  have hgv : get_value "" js.name = n := by rw [hn]; rfl
  simp at hnr
  obtain ⟨h1, h2, h3, h4, h5, h6, h7, h8⟩ := hnr
  constructor
  · simp only [json_to_op, hgv]
    rw [if_neg hne, if_neg h1, if_neg h2, if_neg h3, if_neg h4, if_neg h5,
        if_neg h6, if_neg h7, if_neg h8]
    simp only [json_to_op_gate, hgv, hq, hp, get_value_some]
    rw [if_neg hne, if_neg hqne]
  · intro js2
    by_cases hj : get_value "" js2.name = ""
    · simp [json_to_op, hj]
    · simp only [json_to_op]
      rw [if_neg hj]
      split_ifs
      · exact iff_of_false (measure_ne_missing js2) hj
      · exact iff_of_false (reset_ne_missing js2) hj
      · exact iff_of_false (mat_ne_missing js2) hj
      · exact iff_of_false (dmat_ne_missing js2) hj
      · exact iff_of_false (probs_ne_missing js2) hj
      · exact iff_of_false (obs_pauli_ne_missing js2) hj
      · exact iff_of_false (snapshot_ne_missing js2) hj
      · exact iff_of_false (kraus_ne_missing js2) hj
      · exact gate_missing_iff js2

/-- Witness for C8: the unrecognized name foo with qubits [0] and one
real parameter builds a generic gate. -/
theorem unrecognized_name_generic_gate_w :
    json_to_op { name := some "foo", qubits := some [0], paramsDouble := some [1] } =
      .ok { name := "foo", qubits := [0], params_double := [1] } :=
  (unrecognized_name_generic_gate
    { name := some "foo", qubits := some [0], paramsDouble := some [1] }
    "foo" [0] [1] rfl (by decide) (by decide) rfl (by decide) rfl).1

/-- C9 counterexample: a reset record with a present but empty params
list and one qubit succeeds (the empty list is replaced by the zero
default), although its length 0 differs from the qubits length 1, where
the claim requires a LengthMismatch failure for any present params list
of differing length. -/
theorem reset_present_empty_params_accepted :
    json_to_op_reset { qubits := some [0], paramsDouble := some [] } =
      .ok { name := "reset", qubits := [0], params_double := [0] } ∧
    (([] : List ℚ)).length ≠ ([0] : reg_t).length := by
  refine ⟨by decide, by decide⟩

/-- C9 amended: with non-empty qubits, absent params produce the
all-zero list of the qubits length; a present non-empty params list
fails with LengthMismatch exactly when its length differs from the
qubits length; and a present empty params list is treated as absent,
defaulting to the zero list. -/
theorem reset_defaults_and_length (q : reg_t) (hq : q ≠ []) :
    (∀ js : JsRecord, js.qubits = some q → js.paramsDouble = none →
        json_to_op_reset js = .ok { name := "reset", qubits := q,
                                    params_double := List.replicate q.length 0 }) ∧
    (∀ (js : JsRecord) (p : List ℚ), js.qubits = some q → js.paramsDouble = some p →
        p ≠ [] →
        (p.length ≠ q.length → json_to_op_reset js = .error .LengthMismatch) ∧
        (p.length = q.length →
          json_to_op_reset js = .ok { name := "reset", qubits := q, params_double := p })) ∧
    (∀ js : JsRecord, js.qubits = some q → js.paramsDouble = some [] →
        json_to_op_reset js = .ok { name := "reset", qubits := q,
                                    params_double := List.replicate q.length 0 }) := by
  refine ⟨?_, ?_, ?_⟩
  · intro js hjq hjp
    simp only [json_to_op_reset, hjq, hjp, get_value_some, get_value_none]
    rw [if_neg hq]
    simp
  · intro js p hjq hjp hp
    simp only [json_to_op_reset, hjq, hjp, get_value_some]
    rw [if_neg hq, if_neg hp]
    constructor
    · intro hne
      rw [if_pos hne]
    · intro heq
      rw [if_neg (not_not_intro heq)]
  · intro js hjq hjp
    simp only [json_to_op_reset, hjq, hjp, get_value_some]
    rw [if_neg hq]
    simp

/-- Witness for C9 amended: a reset on qubits [3] with absent params
defaults to the single parameter zero. -/
theorem reset_defaults_and_length_w :
    json_to_op_reset { qubits := some [3] } =
      .ok { name := "reset", qubits := [3], params_double := [0] } := by
  have h := (reset_defaults_and_length [3] (by decide)).1 { qubits := some [3] } rfl rfl
  exact h.trans (by decide)

/-- C10: a snapshot record whose string-label list has exactly one
element yields an instruction whose string-label list has exactly two
elements, the original label followed by the literal default. -/
theorem snapshot_appends_default (js : JsRecord) (l : List Char)
    (h : js.paramsString = some [l]) :
    json_to_op_snapshot js =
      .ok { name := "snapshot", params_string := [l, "default".toList] } := by
  simp [json_to_op_snapshot, h, get_value_some]

/-- Witness for C10 at the one-element label list containing a. -/
theorem snapshot_appends_default_w :
    json_to_op_snapshot { paramsString := some [['a']] } =
      .ok { name := "snapshot", params_string := [['a'], "default".toList] } :=
  snapshot_appends_default { paramsString := some [['a']] } ['a'] rfl

end AerOps
